import Mathlib

/-!
Verification of `qiime/otu_significance.py` (group-significance and
gradient-correlation library).  Python values and behaviours are embedded
shallowly: floats are modelled exactly (finite values as rationals, plus the
IEEE specials `inf`, `-inf`, `nan`); fallible Python operations return
`Except PyError`; Python dicts are modelled as association lists whose list
order stands for the dict's (fixed, per-object) iteration order.
-/

namespace OtuSignificance

/-- Kinds of Python exception the embedded code can raise. -/
inductive PyError where
  | valueError
  | indexError
  | keyError
  | unknownIdError
deriving DecidableEq, Repr

/-- A Python float as produced by `float(...)` / `astype(float)`: a finite
value (modelled exactly as a rational) or one of the specials. -/
inductive PyFloat where
  | finite : ℚ → PyFloat
  | inf : PyFloat
  | negInf : PyFloat
  | nan : PyFloat
deriving DecidableEq, Repr

/-- Negation of a parsed float (used for a leading `-` sign; `-nan` is `nan`). -/
def pfNeg : PyFloat → PyFloat
  | .finite q => .finite (-q)
  | .inf => .negInf
  | .negInf => .inf
  | .nan => .nan

/-- Split a character list on a separator character, keeping empty segments:
models Python `str.split(sep)` with an explicit separator. -/
def splitOnChar (c : Char) : List Char → List (List Char)
  | [] => [[]]
  | a :: rest =>
    match splitOnChar c rest with
    | [] => if a = c then [[], []] else [[a]]
    | h :: t => if a = c then [] :: h :: t else (a :: h) :: t

/-- Numeric value of a list of decimal digit characters. -/
def digitsVal (l : List Char) : ℕ :=
  l.foldl (fun a c => 10 * a + (c.toNat - 48)) 0

/-- Parse an unsigned Python float literal: `inf`, `infinity`, `nan`, or a
decimal form `digits`, `digits.digits`, `digits.` or `.digits`.  Models the
forms of Python `float(...)` that matter here (exponents, case variants and
surrounding whitespace are not modelled). -/
def parseUnsigned (l : List Char) : Option PyFloat :=
  if l = "inf".data ∨ l = "infinity".data then some .inf
  else if l = "nan".data then some .nan
  else
    match splitOnChar '.' l with
    | [ip] =>
      if ip ≠ [] ∧ ip.all Char.isDigit then some (.finite (digitsVal ip)) else none
    | [ip, fp] =>
      if (ip ≠ [] ∨ fp ≠ []) ∧ ip.all Char.isDigit ∧ fp.all Char.isDigit then
        some (.finite ((digitsVal ip : ℚ) + (digitsVal fp : ℚ) / (10 : ℚ) ^ fp.length))
      else none
    | _ => none

/-- Python `float(s)`: optional sign followed by an unsigned literal; `none`
models a raised `ValueError`. -/
def parsePyFloat (s : String) : Option PyFloat :=
  match s.data with
  | [] => none
  | c :: rest =>
    if c = '-' then (parseUnsigned rest).map pfNeg
    else if c = '+' then parseUnsigned rest
    else parseUnsigned s.data

/-- Renders one numeric cell.  Models Python `str(...)` on a float as an
injective exact rendering of the modelled value. -/
def renderCell (q : ℚ) : String := toString q

/-- Left-to-right effectful map over `Option`: models a Python comprehension
in which each element's computation may raise (first failure wins). -/
def mapO (f : α → Option β) : List α → Option (List β)
  | [] => some []
  | a :: l =>
    match f a with
    | none => none
    | some b =>
      match mapO f l with
      | none => none
      | some bs => some (b :: bs)

/-- Left-to-right effectful map over `Except`: models a Python comprehension
in which each element's computation may raise (first exception wins). -/
def mapE (f : α → Except PyError β) : List α → Except PyError (List β)
  | [] => .ok []
  | a :: l =>
    match f a with
    | .error e => .error e
    | .ok b =>
      match mapE f l with
      | .error e => .error e
      | .ok bs => .ok (b :: bs)

/-- Python list indexing `l[i]` for a non-negative index: raises the given
error when out of range. -/
def pyGet (e : PyError) (l : List α) (i : ℕ) : Except PyError α :=
  match l.get? i with
  | some a => .ok a
  | none => .error e

/-- The already-parsed biom table (external collaborator): observation
(feature) ids, sample ids, the dense data matrix `data` holding one row per
observation id in order, and, when present, the per-observation metadata
(modelled as the taxonomy payload handed to the external
`biom_taxonomy_formatter`). -/
structure BiomTable where
  ObservationIds : List String
  SampleIds : List String
  data : List (List ℚ)
  ObservationMetadata : Option (List String)

/-- Models `array([bt.observationData(i) for i in bt.ObservationIds])`: the
table's rows in observation order. -/
def observationDataAll (bt : BiomTable) : List (List ℚ) := bt.data

/-- Models `bt.sampleData(s)`: the column of the table belonging to sample
`s`, raising biom's unknown-id error when `s` is not a sample id. -/
def sampleData (bt : BiomTable) (s : String) : Except PyError (List ℚ) :=
  match (bt.SampleIds.indexOf? s) with
  | none => .error .unknownIdError
  | some j =>
    match mapO (fun row => row.get? j) bt.data with
    | some col => .ok col
    | none => .error .indexError

/-! ## The rank sorter (`sort_by_pval`, source lines 349-355) -/

/-- The cell of `line` used for sorting: `line.split('\t')[ind]` parsed by
`float(...)`; `none` when the column is missing or the cell fails to parse. -/
def lineFloat (ind : ℕ) (line : String) : Option PyFloat :=
  ((splitOnChar '\t' line.data).get? ind).bind (fun cell => parsePyFloat (String.mk cell))

/-- The sort key of the source: the parsed float, with `nan` replaced by
`inf` (`float(x) if not isnan(float(x)) else inf`), mapped into the linear
order `WithBot (WithTop ℚ)` (`⊥` = `-inf`, `⊤` = `+inf`). -/
def sortVal : PyFloat → WithBot (WithTop ℚ)
  | .finite q => ((q : WithTop ℚ) : WithBot (WithTop ℚ))
  | .inf => ((⊤ : WithTop ℚ) : WithBot (WithTop ℚ))
  | .negInf => ⊥
  | .nan => ((⊤ : WithTop ℚ) : WithBot (WithTop ℚ))

/-- Total version of the sort key for a line (defaulting to `⊥` on a parse
failure, which `sort_by_pval` rules out before sorting). -/
def lineVal (ind : ℕ) (line : String) : WithBot (WithTop ℚ) :=
  match lineFloat ind line with
  | some f => sortVal f
  | none => ⊥

/-- Key computation for one line as the source performs it, with the Python
exception it raises: `IndexError` for a missing column, `ValueError` for an
unparseable cell. -/
def lineKeyE (ind : ℕ) (line : String) : Except PyError (WithBot (WithTop ℚ)) :=
  match (splitOnChar '\t' line.data).get? ind with
  | none => .error .indexError
  | some cell =>
    match parsePyFloat (String.mk cell) with
    | none => .error .valueError
    | some f => .ok (sortVal f)

/-- The comparison under which Python's stable `sorted(..., key=...)` sorts:
non-strict comparison of the sort keys. -/
def lineLe (ind : ℕ) (a b : String) : Prop := lineVal ind a ≤ lineVal ind b

instance (ind : ℕ) : DecidableRel (lineLe ind) :=
  fun a b => inferInstanceAs (Decidable (lineVal ind a ≤ lineVal ind b))

instance (ind : ℕ) : IsTotal String (lineLe ind) :=
  ⟨fun a b => le_total (lineVal ind a) (lineVal ind b)⟩

instance (ind : ℕ) : IsTrans String (lineLe ind) :=
  ⟨fun _ _ _ hab hbc => le_trans hab hbc⟩

/-- `sort_by_pval` (source lines 349-355): returns `[lines[0]] + sorted(
lines[1:], key=...)`.  `lines[0]` on an empty list raises `IndexError`;
`sorted` first computes every key left to right (raising `IndexError` /
`ValueError` as `lineKeyE` does), then stably sorts ascending, which for a
total preorder is insertion sort. -/
def sort_by_pval (lines : List String) (ind : ℕ) : Except PyError (List String) :=
  match lines with
  | [] => .error .indexError
  | h :: t =>
    match mapE (lineKeyE ind) t with
    | .error e => .error e
    | .ok _ => .ok (h :: t.insertionSort (lineLe ind))

/-! ## Group significance: grouping and slicing (source lines 66-103) -/

/-- `get_sample_cats` (source lines 66-74):
`{k: pmf[k][category] for k in pmf.keys() if pmf[k][category] != ""}`.
The parsed mapping file is an association list sample id → record (itself an
association list field → value); a record missing the field raises
`KeyError`. -/
def get_sample_cats (pmf : List (String × List (String × String))) (category : String) :
    Except PyError (List (String × String)) :=
  match mapO (fun kv => (kv.2.lookup category).map (fun v => (kv.1, v))) pmf with
  | some l => .ok (l.filter (fun kv => decide (kv.2 ≠ "")))
  | none => .error .keyError

/-- `get_cat_sample_groups` (source lines 76-83): one empty list per distinct
value (`set(sam_cats.values())`, whose arbitrary-but-fixed iteration order is
modelled as first-occurrence order), then each sample id is appended to its
value's list in `sam_cats` iteration order. -/
def get_cat_sample_groups (sam_cats : List (String × String)) : List (String × List String) :=
  ((sam_cats.map Prod.snd).dedup).map
    (fun g => (g, (sam_cats.filter (fun kv => decide (kv.2 = g))).map Prod.fst))

/-- Numpy fancy indexing `row[idxs]`: the selected cells in index-list order,
raising `IndexError` on an out-of-range index. -/
def npIndex (row : List ℚ) (idxs : List ℕ) : Except PyError (List ℚ) :=
  match mapO (fun i => row.get? i) idxs with
  | some l => .ok l
  | none => .error .indexError

/-- `group_significance_row_generator` (source lines 94-103): for every data
row, the list `[row[cat_sam_indices[k]] for k in cat_sam_indices]` — one
array per group, in the dict's iteration order. -/
def group_significance_row_generator (bt : BiomTable)
    (cat_sam_indices : List (String × List ℕ)) :
    Except PyError (List (List (List ℚ))) :=
  mapE (fun row => mapE (fun kv => npIndex row kv.2) cat_sam_indices)
    (observationDataAll bt)

/-- Models `numpy.mean` of a non-empty array: sum divided by length (the
empty-array `nan` case is not modelled; the partition never creates empty
groups). -/
def pymean (l : List ℚ) : ℚ := l.sum / l.length

/-- The per-row means accumulation of `run_group_significance_test` (source
line 133): `means.append([i.mean() for i in row])`, in slice order.  The
statistical-test dispatch of that runner calls external collaborators and is
not modelled. -/
def group_means (rows : List (List (List ℚ))) : List (List ℚ) :=
  rows.map (fun row => row.map pymean)

/-! ## Formatters (source lines 136-160, 221-246, 289-311, 328-345) -/

/-- The header row built by `group_significance_output_formatter` (source
lines 144-151): fixed columns, one `{group}_mean` column per key of
`cat_sample_indices` in dict iteration order, and `Taxonomy` iff the table
carries observation metadata. -/
def group_significance_header (cat_sample_indices : List (String × List ℕ))
    (tax : Bool) : List String :=
  ["OTU", "Test-Statistic", "P", "FDR_P", "Bonferroni_P"]
    ++ cat_sample_indices.map (fun kv => kv.1 ++ "_mean")
    ++ (if tax then ["Taxonomy"] else [])

/-- `group_significance_output_formatter` (source lines 136-160).
`num_lines = len(pvals)`; each data line joins the i-th observation id, the
rendered results, the rendered group means, and optionally the taxonomy cell
produced by the external `biom_taxonomy_formatter` (parameter `taxf`). -/
def group_significance_output_formatter (taxf : String → String) (bt : BiomTable)
    (test_stats pvals fdr_pvals bon_pvals : List ℚ) (means : List (List ℚ))
    (cat_sample_indices : List (String × List ℕ)) : Except PyError (List String) :=
  let header := group_significance_header cat_sample_indices bt.ObservationMetadata.isSome
  let num_lines := pvals.length
  (mapE (fun i => do
      let oid ← pyGet .indexError bt.ObservationIds i
      let ts ← pyGet .indexError test_stats i
      let p ← pyGet .indexError pvals i
      let fp ← pyGet .indexError fdr_pvals i
      let bp ← pyGet .indexError bon_pvals i
      let m ← pyGet .indexError means i
      let tmp := oid :: ([ts, p, fp, bp].map renderCell) ++ m.map renderCell
      match bt.ObservationMetadata with
      | none => pure (String.intercalate "\t" tmp)
      | some tx => do
          let t ← pyGet .indexError tx i
          pure (String.intercalate "\t" (tmp ++ [taxf t])))
    (List.range num_lines)).map (fun ls => String.intercalate "\t" header :: ls)

/-- `longitudinal_correlation_formatter` (source lines 221-246).
`num_lines = len(combo_rhos)`; each line is
`[OTU, combo_rho, homogenous, combo_pval, fdr, bon, corrcoefs joined by
", ", individual order]` plus the optional taxonomy cell. -/
def longitudinal_correlation_formatter (taxf : String → String) (bt : BiomTable)
    (combo_rhos combo_pvals homogenous fdr_ps bon_ps : List ℚ)
    (corrcoefs : List (List ℚ)) (hsid_to_samples : List (String × List String)) :
    Except PyError (List String) :=
  let ind_order := String.intercalate ", " (hsid_to_samples.map Prod.fst)
  let header := ["OTU", "Fisher Combined Rho", "P Rho is Homogenous",
      "Fisher Combined P", "FDR P", "Bonferroni P", "Corrcoefs",
      "Individual Order"]
      ++ (if bt.ObservationMetadata.isSome then ["Taxonomy"] else [])
  let num_lines := combo_rhos.length
  (mapE (fun i => do
      let oid ← pyGet .indexError bt.ObservationIds i
      let cr ← pyGet .indexError combo_rhos i
      let hg ← pyGet .indexError homogenous i
      let cp ← pyGet .indexError combo_pvals i
      let fp ← pyGet .indexError fdr_ps i
      let bp ← pyGet .indexError bon_ps i
      let cc ← pyGet .indexError corrcoefs i
      let tmp := [oid, renderCell cr, renderCell hg, renderCell cp, renderCell fp,
        renderCell bp, String.intercalate ", " (cc.map renderCell), ind_order]
      match bt.ObservationMetadata with
      | none => pure (String.intercalate "\t" tmp)
      | some tx => do
          let t ← pyGet .indexError tx i
          pure (String.intercalate "\t" (tmp ++ [taxf t])))
    (List.range num_lines)).map (fun ls => String.intercalate "\t" header :: ls)

/-- `correlation_output_formatter` (source lines 289-311).
`num_lines = len(corr_coefs)`; each line is `[OTU, corr_coef, p, p_fdr,
p_bon, np, np_fdr, np_bon, ci_highs[i], ci_lows[i]]` (the last two exactly as
on source lines 305-307) plus the optional taxonomy cell. -/
def correlation_output_formatter (taxf : String → String) (bt : BiomTable)
    (corr_coefs p_pvals p_pvals_fdr p_vals_bon np_pvals np_pvals_fdr np_pvals_bon
      ci_highs ci_lows : List ℚ) : Except PyError (List String) :=
  let header := ["OTU", "Correlation_Coef", "parametric_P", "parametric_P_FDR",
      "parametric_P_Bon", "nonparametric_P", "nonparametric_P_FDR",
      "nonparametric_P_Bon", "confidence_low", "confidence_high"]
      ++ (if bt.ObservationMetadata.isSome then ["Taxonomy"] else [])
  let num_lines := corr_coefs.length
  (mapE (fun i => do
      let oid ← pyGet .indexError bt.ObservationIds i
      let cc ← pyGet .indexError corr_coefs i
      let pp ← pyGet .indexError p_pvals i
      let pf ← pyGet .indexError p_pvals_fdr i
      let pb ← pyGet .indexError p_vals_bon i
      let np ← pyGet .indexError np_pvals i
      let nf ← pyGet .indexError np_pvals_fdr i
      let nb ← pyGet .indexError np_pvals_bon i
      let ch ← pyGet .indexError ci_highs i
      let cl ← pyGet .indexError ci_lows i
      let tmp := oid :: ([cc, pp, pf, pb, np, nf, nb, ch, cl].map renderCell)
      match bt.ObservationMetadata with
      | none => pure (String.intercalate "\t" tmp)
      | some tx => do
          let t ← pyGet .indexError tx i
          pure (String.intercalate "\t" (tmp ++ [taxf t])))
    (List.range num_lines)).map (fun ls => String.intercalate "\t" header :: ls)

/-- `paired_t_output_formatter` (source lines 328-345).
`num_lines = len(pvals)`. -/
def paired_t_output_formatter (taxf : String → String) (bt : BiomTable)
    (test_stats pvals fdr_pvals bon_pvals : List ℚ) : Except PyError (List String) :=
  let header := ["OTU", "Test-Statistic", "P", "FDR_P", "Bonferroni_P"]
      ++ (if bt.ObservationMetadata.isSome then ["Taxonomy"] else [])
  let num_lines := pvals.length
  (mapE (fun i => do
      let oid ← pyGet .indexError bt.ObservationIds i
      let ts ← pyGet .indexError test_stats i
      let p ← pyGet .indexError pvals i
      let fp ← pyGet .indexError fdr_pvals i
      let bp ← pyGet .indexError bon_pvals i
      let tmp := [oid, renderCell ts, renderCell p, renderCell fp, renderCell bp]
      match bt.ObservationMetadata with
      | none => pure (String.intercalate "\t" tmp)
      | some tx => do
          let t ← pyGet .indexError tx i
          pure (String.intercalate "\t" (tmp ++ [taxf t])))
    (List.range num_lines)).map (fun ls => String.intercalate "\t" header :: ls)

/-! ## Gradient correlation slice generators (source lines 164-191, 248-265, 313-317) -/

/-- Python `pmf[sid][category]`: nested dict lookup, `KeyError` when either
key is absent. -/
def pmfLookup (pmf : List (String × List (String × String))) (sid category : String) :
    Except PyError String :=
  match pmf.lookup sid with
  | none => .error .keyError
  | some record =>
    match record.lookup category with
    | none => .error .keyError
    | some v => .ok v

/-- The float the gradient builders obtain for sample `s`: the metadata
value for `category` put through `float(...)`; `none` when the lookup fails
or the value does not convert. -/
def gradientValue (pmf : List (String × List (String × String)))
    (category : String) (s : String) : Option PyFloat :=
  match pmfLookup pmf s category with
  | .ok v => parsePyFloat v
  | .error _ => none

/-- `longitudinal_row_generator` (source lines 164-191): first builds
`l_arr`, the per-subject gradient arrays, converting every metadata value
with `astype(float)` — a conversion failure raises `ValueError` here, before
any feature row exists; then produces, per data row, the per-subject
observation arrays paired with `l_arr`.  (The source returns the rows as a
lazy generator; this embedding lists them, which preserves the property that
the gradient conversion precedes every row.) -/
def longitudinal_row_generator (bt : BiomTable)
    (pmf : List (String × List (String × String))) (category : String)
    (hsid_to_samples : List (String × List String))
    (hsid_to_sample_indices : List (String × List ℕ)) :
    Except PyError (List (List (List ℚ) × List (List PyFloat))) := do
  let data := observationDataAll bt
  let l_arr ← mapE (fun g => do
      let strs ← mapE (fun sid => pmfLookup pmf sid category) g.2
      match mapO parsePyFloat strs with
      | some fs => pure fs
      | none => Except.error PyError.valueError) hsid_to_samples
  mapE (fun row => do
      let grouped ← mapE (fun kv => npIndex row kv.2) hsid_to_sample_indices
      pure (grouped, l_arr)) data

/-- `correlation_row_generator` (source lines 248-265): builds the shared
gradient vector `cat_vect` from the metadata values of the samples in matrix
column order via `astype(float)` — a conversion failure raises `ValueError`
(re-raised with the source's message) before any row pair exists — then
pairs every data row with `cat_vect`. -/
def correlation_row_generator (bt : BiomTable)
    (pmf : List (String × List (String × String))) (category : String) :
    Except PyError (List (List ℚ × List PyFloat)) := do
  let data := observationDataAll bt
  let strs ← mapE (fun s => pmfLookup pmf s category) bt.SampleIds
  match mapO parsePyFloat strs with
  | some cat_vect => pure (data.map (fun row => (row, cat_vect)))
  | none => Except.error PyError.valueError

/-- One side of `paired_t_generator`: `vstack([bt.sampleData(i) for i in
ids])` — the comprehension's own errors fire first, then `vstack` raises
`ValueError` on an empty list. -/
def stackCols (bt : BiomTable) (ids : List String) : Except PyError (List (List ℚ)) := do
  let cols ← mapE (sampleData bt) ids
  if cols.isEmpty then Except.error PyError.valueError else pure cols

/-- `paired_t_generator` (source lines 313-317): stacks the before and after
sample columns and yields, for `i` in `range(len(bt.ObservationIds))`, the
pair `(b_data[i], a_data[i])` of transposed rows.  No length comparison of
the two id lists is performed anywhere. -/
def paired_t_generator (bt : BiomTable) (s_before s_after : List String) :
    Except PyError (List (List ℚ × List ℚ)) := do
  let bcols ← stackCols bt s_before
  let acols ← stackCols bt s_after
  mapE (fun i => do
      let b ← mapE (fun col => pyGet PyError.indexError col i) bcols
      let a ← mapE (fun col => pyGet PyError.indexError col i) acols
      pure (b, a)) (List.range bt.ObservationIds.length)

/-! ## The longitudinal runner (source lines 193-219) -/

/-- `run_longitudinal_correlation_test` (source lines 193-219).  The external
statistical functions (`test_choices[test]`, `kendall_pval`,
`parametric_correlation_significance`, `fisher`,
`fisher_population_correlation`) are parameters, mirroring the names the
source calls.  Line 207 of the source is the incomplete assignment `pval = `
— a Python syntax error; this embedding drops that line, so the
unconditional assignment of line 208 (indented at loop level) rebinds `pval`
on every branch and the kendall-branch value of line 205 is discarded. -/
def run_longitudinal_correlation_test
    (test_fn : List ℚ → List PyFloat → ℚ)
    (kendall_pval : ℚ → ℕ → ℚ)
    (parametric_correlation_significance : ℚ → ℕ → ℚ)
    (fisher : List ℚ → ℚ)
    (fisher_population_correlation : List ℚ → List ℕ → ℚ × ℚ)
    (test : String)
    (data_generator : List (List (List ℚ) × List (List PyFloat))) :
    Except PyError (List (List ℚ) × List ℚ × List ℚ × List ℚ) := do
  let per_row ← mapE (fun og => do
      let obs_vals := og.1
      let gradient_vals := og.2
      let pairs ← mapE (fun i => do
          let ov ← pyGet .indexError obs_vals i
          let gv ← pyGet .indexError gradient_vals i
          let r := test_fn ov gv
          let pval := if test = "kendall" then kendall_pval r ov.length
            else parametric_correlation_significance r ov.length
          let pval := parametric_correlation_significance r ov.length
          pure (r, pval)) (List.range obs_vals.length)
      let rs_i := pairs.map Prod.fst
      let pvals_i := pairs.map Prod.snd
      let sample_sizes := obs_vals.map List.length
      let fr := fisher_population_correlation rs_i sample_sizes
      pure (rs_i, fisher pvals_i, fr.1, fr.2)) data_generator
  pure (per_row.map (fun x => x.1), per_row.map (fun x => x.2.1),
    per_row.map (fun x => x.2.2.1), per_row.map (fun x => x.2.2.2))

/-! ## General lemmas about the embedding combinators -/

instance exceptDecEq {ε α : Type} [DecidableEq ε] [DecidableEq α] :
    DecidableEq (Except ε α) := fun x y =>
  match x, y with
  | .ok a, .ok b =>
    if h : a = b then isTrue (by rw [h]) else isFalse (fun hc => h (Except.ok.inj hc))
  | .error e, .error f =>
    if h : e = f then isTrue (by rw [h]) else isFalse (fun hc => h (Except.error.inj hc))
  | .ok _, .error _ => isFalse (fun hc => Except.noConfusion hc)
  | .error _, .ok _ => isFalse (fun hc => Except.noConfusion hc)

@[simp] theorem ok_bind {α β : Type} (a : α) (f : α → Except PyError β) :
    (Except.ok a >>= f) = f a := rfl

@[simp] theorem error_bind {α β : Type} (e : PyError) (f : α → Except PyError β) :
    (Except.error e >>= f : Except PyError β) = Except.error e := rfl

theorem mapO_length {α β : Type} {f : α → Option β} :
    ∀ {l : List α} {out : List β}, mapO f l = some out → out.length = l.length := by
  intro l
  induction l with
  | nil =>
    intro out h
    simp only [mapO, Option.some.injEq] at h
    simp [← h]
  | cons a t ih =>
    intro out h
    simp only [mapO] at h
    cases hfa : f a with
    | none => rw [hfa] at h; exact absurd h (by simp)
    | some b =>
      rw [hfa] at h
      cases hmt : mapO f t with
      | none => rw [hmt] at h; exact absurd h (by simp)
      | some bs =>
        rw [hmt] at h
        simp only [Option.some.injEq] at h
        rw [← h]
        simp [ih hmt]

theorem mapO_get? {α β : Type} {f : α → Option β} :
    ∀ {l : List α} {out : List β}, mapO f l = some out →
      ∀ i : ℕ, (l.get? i).bind f = out.get? i := by
  intro l
  induction l with
  | nil =>
    intro out h i
    simp only [mapO, Option.some.injEq] at h
    rw [← h]
    rfl
  | cons a t ih =>
    intro out h i
    simp only [mapO] at h
    cases hfa : f a with
    | none => rw [hfa] at h; exact absurd h (by simp)
    | some b =>
      rw [hfa] at h
      cases hmt : mapO f t with
      | none => rw [hmt] at h; exact absurd h (by simp)
      | some bs =>
        rw [hmt] at h
        simp only [Option.some.injEq] at h
        rw [← h]
        cases i with
        | zero => rw [List.get?_cons_zero, List.get?_cons_zero, Option.some_bind, hfa]
        | succ j => rw [List.get?_cons_succ, List.get?_cons_succ]; exact ih hmt j

theorem mapO_eq_map {α β : Type} {f : α → Option β} {g : α → β} :
    ∀ {l : List α}, (∀ a ∈ l, f a = some (g a)) → mapO f l = some (l.map g) := by
  intro l
  induction l with
  | nil => intro _; rfl
  | cons a t ih =>
    intro hall
    have ha := hall a (List.mem_cons_self a t)
    have ht := ih (fun x hx => hall x (List.mem_cons_of_mem a hx))
    simp [mapO, ha, ht]

theorem mapO_none_of_mem {α β : Type} {f : α → Option β} {x : α} :
    ∀ {l : List α}, x ∈ l → f x = none → mapO f l = none := by
  intro l
  induction l with
  | nil => intro hx; exact absurd hx (List.not_mem_nil x)
  | cons a t ih =>
    intro hx hfx
    rcases List.mem_cons.mp hx with rfl | hxt
    · simp [mapO, hfx]
    · cases hfa : f a with
      | none => simp [mapO, hfa]
      | some b => simp [mapO, hfa, ih hxt hfx]

theorem mapE_length {α β : Type} {f : α → Except PyError β} :
    ∀ {l : List α} {out : List β}, mapE f l = .ok out → out.length = l.length := by
  intro l
  induction l with
  | nil =>
    intro out h
    simp only [mapE, Except.ok.injEq] at h
    simp [← h]
  | cons a t ih =>
    intro out h
    simp only [mapE] at h
    cases hfa : f a with
    | error e => rw [hfa] at h; exact absurd h (by simp)
    | ok b =>
      rw [hfa] at h
      cases hmt : mapE f t with
      | error e => rw [hmt] at h; exact absurd h (by simp)
      | ok bs =>
        rw [hmt] at h
        simp only [Except.ok.injEq] at h
        rw [← h]
        simp [ih hmt]

theorem mapE_get? {α β : Type} {f : α → Except PyError β} :
    ∀ {l : List α} {out : List β}, mapE f l = .ok out →
      ∀ {i : ℕ} {a : α}, l.get? i = some a → ∃ b, f a = .ok b ∧ out.get? i = some b := by
  intro l
  induction l with
  | nil => intro out _ i a ha; simp at ha
  | cons x t ih =>
    intro out h i a ha
    simp only [mapE] at h
    cases hfa : f x with
    | error e => rw [hfa] at h; exact absurd h (by simp)
    | ok b =>
      rw [hfa] at h
      cases hmt : mapE f t with
      | error e => rw [hmt] at h; exact absurd h (by simp)
      | ok bs =>
        rw [hmt] at h
        simp only [Except.ok.injEq] at h
        cases i with
        | zero =>
          rw [List.get?_cons_zero, Option.some.injEq] at ha
          exact ⟨b, by rw [← ha]; exact hfa, by rw [← h, List.get?_cons_zero]⟩
        | succ j =>
          rw [List.get?_cons_succ] at ha
          obtain ⟨c, hc1, hc2⟩ := ih hmt ha
          exact ⟨c, hc1, by rw [← h, List.get?_cons_succ]; exact hc2⟩

theorem mapE_eq_map {α β : Type} {f : α → Except PyError β} {g : α → β} :
    ∀ {l : List α}, (∀ a ∈ l, f a = .ok (g a)) → mapE f l = .ok (l.map g) := by
  intro l
  induction l with
  | nil => intro _; rfl
  | cons a t ih =>
    intro hall
    have ha := hall a (List.mem_cons_self a t)
    have ht := ih (fun x hx => hall x (List.mem_cons_of_mem a hx))
    simp [mapE, ha, ht]

theorem mapE_ok_of_forall {α β : Type} {f : α → Except PyError β} :
    ∀ {l : List α}, (∀ a ∈ l, ∃ b, f a = .ok b) →
      ∃ out, mapE f l = .ok out ∧ out.length = l.length := by
  intro l
  induction l with
  | nil => intro _; exact ⟨[], rfl, rfl⟩
  | cons a t ih =>
    intro hall
    obtain ⟨b, hb⟩ := hall a (List.mem_cons_self a t)
    obtain ⟨bs, hbs, hlen⟩ := ih (fun x hx => hall x (List.mem_cons_of_mem a hx))
    exact ⟨b :: bs, by simp [mapE, hb, hbs], by simp [hlen]⟩

theorem mapE_forall_of_ok {α β : Type} {f : α → Except PyError β} :
    ∀ {l : List α} {out : List β}, mapE f l = .ok out →
      ∀ a ∈ l, ∃ b, f a = .ok b := by
  intro l
  induction l with
  | nil => intro out _ a ha; exact absurd ha (List.not_mem_nil a)
  | cons x t ih =>
    intro out h a ha
    simp only [mapE] at h
    cases hfa : f x with
    | error e => rw [hfa] at h; simp at h
    | ok b =>
      rw [hfa] at h
      cases hmt : mapE f t with
      | error e => rw [hmt] at h; simp at h
      | ok bs =>
        rcases List.mem_cons.mp ha with rfl | hat
        · exact ⟨b, hfa⟩
        · exact ih hmt a hat

theorem mapE_error_of_exists {α β : Type} {f : α → Except PyError β} :
    ∀ {l : List α}, (∃ x ∈ l, ∀ b, f x ≠ .ok b) →
      ∃ e, mapE f l = .error e := by
  intro l
  induction l with
  | nil => intro ⟨x, hx, _⟩; exact absurd hx (List.not_mem_nil x)
  | cons a t ih =>
    intro ⟨x, hx, hbad⟩
    rcases List.mem_cons.mp hx with rfl | hxt
    · cases hfa : f x with
      | error e => exact ⟨e, by simp [mapE, hfa]⟩
      | ok b => exact absurd hfa (hbad b)
    · cases hfa : f a with
      | error e => exact ⟨e, by simp [mapE, hfa]⟩
      | ok b =>
        obtain ⟨e, he⟩ := ih ⟨x, hxt, hbad⟩
        exact ⟨e, by simp [mapE, hfa, he]⟩

theorem mapE_error_specific {α β : Type} {f : α → Except PyError β} {e0 : PyError} :
    ∀ {l : List α}, (∀ a ∈ l, (∃ b, f a = .ok b) ∨ f a = .error e0) →
      (∃ x ∈ l, f x = .error e0) → mapE f l = .error e0 := by
  intro l
  induction l with
  | nil => intro _ ⟨x, hx, _⟩; exact absurd hx (List.not_mem_nil x)
  | cons a t ih =>
    intro hall ⟨x, hx, hbad⟩
    cases hfa : f a with
    | error e =>
      have : e = e0 := by
        rcases hall a (List.mem_cons_self a t) with ⟨b, hb⟩ | hb
        · rw [hfa] at hb; exact absurd hb (by simp)
        · rw [hfa] at hb; exact Except.error.inj hb
      simp [mapE, hfa, this]
    | ok b =>
      have hxt : x ∈ t := by
        rcases List.mem_cons.mp hx with rfl | hxt
        · rw [hfa] at hbad; exact absurd hbad (by simp)
        · exact hxt
      have := ih (fun y hy => hall y (List.mem_cons_of_mem a hy)) ⟨x, hxt, hbad⟩
      simp [mapE, hfa, this]

theorem pyGet_ok_of_get? {α : Type} {e : PyError} {l : List α} {i : ℕ} {a : α}
    (h : l.get? i = some a) : pyGet e l i = .ok a := by
  unfold pyGet
  rw [h]

theorem pyGet_ok_of_lt {α : Type} (e : PyError) {l : List α} {i : ℕ}
    (h : i < l.length) : ∃ a, pyGet e l i = .ok a ∧ l.get? i = some a := by
  cases hg : l.get? i with
  | none => exact absurd (List.get?_eq_none.mp hg) (not_le.mpr h)
  | some a => exact ⟨a, pyGet_ok_of_get? hg, rfl⟩

/-- Whether an embedded Python computation succeeded (no exception). -/
def exOk {α : Type} : Except PyError α → Bool
  | .ok _ => true
  | .error _ => false

theorem exOk_iff {α : Type} {x : Except PyError α} :
    exOk x = true ↔ ∃ b, x = .ok b := by
  cases x with
  | ok b => simp [exOk]
  | error e => simp [exOk]

/-! ## Stability of the rank sorter -/

theorem orderedInsert_filter_val (ind : ℕ) (a : String) (k : WithBot (WithTop ℚ)) :
    ∀ l : List String,
      (l.orderedInsert (lineLe ind) a).filter (fun x => decide (lineVal ind x = k))
        = if lineVal ind a = k
          then a :: l.filter (fun x => decide (lineVal ind x = k))
          else l.filter (fun x => decide (lineVal ind x = k)) := by
  intro l
  induction l with
  | nil =>
    by_cases hpa : lineVal ind a = k <;>
      simp [List.orderedInsert, List.filter_cons, hpa]
  | cons b t ih =>
    by_cases hr : lineLe ind a b
    · rw [List.orderedInsert_of_le (lineLe ind) t hr]
      by_cases hpa : lineVal ind a = k <;> simp [List.filter_cons, hpa]
    · have hlt : lineVal ind b < lineVal ind a := not_le.mp hr
      simp only [List.orderedInsert, if_neg hr]
      by_cases hpa : lineVal ind a = k
      · have hpb : ¬ lineVal ind b = k := by
          intro hb
          rw [hpa] at hlt
          exact absurd hb (ne_of_lt hlt)
        simp [List.filter_cons, hpa, hpb, ih]
      · simp [List.filter_cons, hpa, ih]

theorem insertionSort_filter_val (ind : ℕ) (k : WithBot (WithTop ℚ)) :
    ∀ l : List String,
      (l.insertionSort (lineLe ind)).filter (fun x => decide (lineVal ind x = k))
        = l.filter (fun x => decide (lineVal ind x = k)) := by
  intro l
  induction l with
  | nil => rfl
  | cons a t ih =>
    simp only [List.insertionSort]
    rw [orderedInsert_filter_val, ih]
    by_cases hpa : lineVal ind a = k <;> simp [List.filter_cons, hpa]

/-! ## Claims C3, C8, C9 about the rank sorter -/

/-- **C3 counterexample**: on a line whose chosen cell is the unparseable
string `x`, the rank sorter raises `ValueError` (from `float(...)`) instead
of sorting that line after the numeric lines, refuting the claim's
"rather than causing a failure". -/
theorem sort_by_pval_unparseable_raises :
    sort_by_pval ["OTU\tP", "o1\tx"] 1 = .error .valueError := by decide

/-- **C3** (amended): for a non-empty list whose non-header lines all carry a
parseable cell at the chosen column, the rank sorter keeps the header first
and returns the remaining lines stably sorted ascending by the parsed float
with `nan` keyed as `+inf` (permutation + sortedness + the filter-by-key
characterisation of stability); a non-header line whose cell is missing or
fails to parse as a number makes the sorter raise instead. -/
theorem sort_by_pval_sorts (h : String) (t : List String) (ind : ℕ)
    (hok : ∀ x ∈ t, exOk (lineKeyE ind x) = true) :
    ∃ out, sort_by_pval (h :: t) ind = .ok (h :: out)
      ∧ out.Perm t
      ∧ List.Sorted (lineLe ind) out
      ∧ (∀ k : WithBot (WithTop ℚ),
          out.filter (fun x => decide (lineVal ind x = k))
            = t.filter (fun x => decide (lineVal ind x = k)))
      ∧ (∀ t' : List String, (∃ x ∈ t', exOk (lineKeyE ind x) = false) →
          ∃ e, sort_by_pval (h :: t') ind = .error e) := by
  obtain ⟨ks, hks, _⟩ :=
    mapE_ok_of_forall (fun x hx => exOk_iff.mp (hok x hx))
  refine ⟨t.insertionSort (lineLe ind), ?_, List.perm_insertionSort (lineLe ind) t,
    List.sorted_insertionSort (lineLe ind) t,
    fun k => insertionSort_filter_val ind k t, ?_⟩
  · simp only [sort_by_pval]
    rw [hks]
  · intro t' ⟨x, hx, hbad⟩
    have hxerr : ∀ b, lineKeyE ind x ≠ .ok b := by
      intro b hb
      rw [hb] at hbad
      simp [exOk] at hbad
    obtain ⟨e, he⟩ := mapE_error_of_exists ⟨x, hx, hxerr⟩
    refine ⟨e, ?_⟩
    simp only [sort_by_pval]
    rw [he]

/-- **C3 witness**: a concrete successful sort and a concrete failure. -/
theorem sort_by_pval_sorts_witness :
    ∃ out, sort_by_pval ["OTU\tP", "o2\t3", "o1\t2"] 1 = .ok ("OTU\tP" :: out)
      ∧ out.Perm ["o2\t3", "o1\t2"]
      ∧ List.Sorted (lineLe 1) out
      ∧ (∀ k : WithBot (WithTop ℚ),
          out.filter (fun x => decide (lineVal 1 x = k))
            = (["o2\t3", "o1\t2"] : List String).filter (fun x => decide (lineVal 1 x = k)))
      ∧ (∀ t' : List String, (∃ x ∈ t', exOk (lineKeyE 1 x) = false) →
          ∃ e, sort_by_pval ("OTU\tP" :: t') 1 = .error e) :=
  sort_by_pval_sorts "OTU\tP" ["o2\t3", "o1\t2"] 1 (by decide)

/-- **C9**: a successful sort returns the header in first position unchanged
and a permutation of the remaining input lines — no line added, removed,
duplicated or altered. -/
theorem sort_by_pval_is_permutation (lines : List String) (ind : ℕ)
    (out : List String) (hout : sort_by_pval lines ind = .ok out) :
    out.head? = lines.head? ∧ out.tail.Perm lines.tail ∧ out.Perm lines := by
  match lines with
  | [] => exact absurd hout (by simp [sort_by_pval])
  | h :: t =>
    simp only [sort_by_pval] at hout
    cases hm : mapE (lineKeyE ind) t with
    | error e => rw [hm] at hout; exact absurd hout (by simp)
    | ok ks =>
      rw [hm] at hout
      simp only [Except.ok.injEq] at hout
      rw [← hout]
      exact ⟨rfl, by simpa using List.perm_insertionSort (lineLe ind) t,
        by simpa using List.Perm.cons h (List.perm_insertionSort (lineLe ind) t)⟩

/-- **C9 witness**: concrete instance. -/
theorem sort_by_pval_is_permutation_witness :
    (["h", "b\t1", "a\t2"] : List String).head? = (["h", "a\t2", "b\t1"] : List String).head?
    ∧ (["h", "b\t1", "a\t2"] : List String).tail.Perm (["h", "a\t2", "b\t1"] : List String).tail
    ∧ (["h", "b\t1", "a\t2"] : List String).Perm ["h", "a\t2", "b\t1"] :=
  sort_by_pval_is_permutation ["h", "a\t2", "b\t1"] 1 ["h", "b\t1", "a\t2"] (by decide)

/-- **C8 counterexample**: `nan` is keyed as `+inf`, so a NaN line *ties*
with a line whose cell is the valid number `inf` and, by stability, stays
*before* it: after a successful sort the NaN line precedes a line with a
valid (non-NaN) numeric cell, refuting "NaN values always end up after all
valid numeric values". -/
theorem sort_by_pval_nan_ties_with_inf :
    sort_by_pval ["h", "a\tnan", "b\tinf"] 1 = .ok ["h", "a\tnan", "b\tinf"]
    ∧ lineFloat 1 "a\tnan" = some PyFloat.nan
    ∧ lineFloat 1 "b\tinf" = some PyFloat.inf := by decide

/-- **C8** (amended): the rank sorter is idempotent — re-sorting a
successful output returns it unchanged — and in the output every NaN line
is placed after every line whose cell parses to a *finite* number,
regardless of initial position (NaN is keyed as `+inf`, so it ties with
`+inf`-valued cells and keeps input order relative to those). -/
theorem sort_by_pval_idempotent (lines : List String) (ind : ℕ) (out : List String)
    (hout : sort_by_pval lines ind = .ok out) :
    sort_by_pval out ind = .ok out
    ∧ ∀ i j x y, out.tail.get? i = some x → out.tail.get? j = some y →
        lineFloat ind x = some PyFloat.nan →
        (∃ q : ℚ, lineFloat ind y = some (PyFloat.finite q)) →
        j < i := by
  match lines with
  | [] => exact absurd hout (by simp [sort_by_pval])
  | h :: t =>
    simp only [sort_by_pval] at hout
    cases hm : mapE (lineKeyE ind) t with
    | error e => rw [hm] at hout; exact absurd hout (by simp)
    | ok ks =>
      rw [hm] at hout
      simp only [Except.ok.injEq] at hout
      have hsorted : List.Sorted (lineLe ind) (t.insertionSort (lineLe ind)) :=
        List.sorted_insertionSort (lineLe ind) t
      constructor
      · -- idempotence
        have hall : ∀ x ∈ t.insertionSort (lineLe ind), ∃ b, lineKeyE ind x = .ok b := by
          intro x hx
          exact mapE_forall_of_ok hm x ((List.mem_insertionSort (lineLe ind)).mp hx)
        obtain ⟨ks', hks', _⟩ := mapE_ok_of_forall hall
        rw [← hout]
        simp only [sort_by_pval]
        rw [hks', hsorted.insertionSort_eq]
      · -- NaN lines come after all finite-valued lines
        intro i j x y hi hj hx hy
        rw [← hout] at hi hj
        simp only [List.tail_cons] at hi hj
        obtain ⟨hilt, higet⟩ := List.get?_eq_some.mp hi
        obtain ⟨hjlt, hjget⟩ := List.get?_eq_some.mp hj
        obtain ⟨q, hq⟩ := hy
        have hvx : lineVal ind x = ((⊤ : WithTop ℚ) : WithBot (WithTop ℚ)) := by
          simp [lineVal, hx, sortVal]
        have hvy : lineVal ind y = ((q : WithTop ℚ) : WithBot (WithTop ℚ)) := by
          simp [lineVal, hq, sortVal]
        rcases Nat.lt_trichotomy i j with hij | hij | hij
        · exfalso
          have hle : lineLe ind x y := by
            have := List.pairwise_iff_get.mp hsorted ⟨i, hilt⟩ ⟨j, hjlt⟩ hij
            rwa [higet, hjget] at this
          rw [lineLe, hvx, hvy] at hle
          have : (⊤ : WithTop ℚ) ≤ (q : WithTop ℚ) := WithBot.coe_le_coe.mp hle
          exact WithTop.coe_ne_top (top_le_iff.mp this)
        · exfalso
          subst hij
          rw [higet] at hjget
          rw [hjget] at hx
          rw [hx] at hq
          exact PyFloat.noConfusion (Option.some.inj hq)
        · exact hij

/-- **C8 witness**: concrete instance of idempotence + NaN placement. -/
theorem sort_by_pval_idempotent_witness :
    sort_by_pval ["h", "a\t7", "b\tnan"] 1 = .ok ["h", "a\t7", "b\tnan"]
    ∧ ∀ i j x y, (["a\t7", "b\tnan"] : List String).get? i = some x →
        (["a\t7", "b\tnan"] : List String).get? j = some y →
        lineFloat 1 x = some PyFloat.nan →
        (∃ q : ℚ, lineFloat 1 y = some (PyFloat.finite q)) →
        j < i :=
  sort_by_pval_idempotent ["h", "b\tnan", "a\t7"] 1 ["h", "a\t7", "b\tnan"] (by decide)

/-! ## Claim C4: the paired generator and length mismatches -/

/-- **C4 counterexample**: given a before-list of length 3 and an after-list
of length 2, the paired generator succeeds — before yielding anything it
raises no length-mismatch error — and the pair it yields has arrays of
unequal lengths 3 and 2. -/
theorem paired_t_generator_no_length_check :
    paired_t_generator ⟨["o1"], ["s1", "s2", "s3", "s4", "s5"], [[1, 2, 3, 4, 5]], none⟩
        ["s1", "s2", "s3"] ["s4", "s5"] = .ok [([1, 2, 3], [4, 5])]
    ∧ ([1, 2, 3] : List ℚ).length ≠ ([4, 5] : List ℚ).length := by decide

/-- **C4** (amended): the paired generator performs no length check on the
two sample-id lists.  Whenever it succeeds it yields one pair per feature,
whose arrays have lengths `s_before.length` and `s_after.length`
respectively — nothing is truncated, and id lists of unequal length produce
pairs of arrays of unequal length; the length-mismatch error arises only
later, inside the external paired t test that consumes the pairs. -/
theorem paired_t_generator_pair_lengths (bt : BiomTable) (s_before s_after : List String)
    (out : List (List ℚ × List ℚ))
    (hout : paired_t_generator bt s_before s_after = .ok out) :
    out.length = bt.ObservationIds.length
    ∧ ∀ p ∈ out, p.1.length = s_before.length ∧ p.2.length = s_after.length := by
  unfold paired_t_generator at hout
  cases hb : stackCols bt s_before with
  | error e => rw [hb] at hout; exact absurd hout (by simp)
  | ok bcols =>
    rw [hb] at hout
    cases ha : stackCols bt s_after with
    | error e => rw [ha] at hout; exact absurd hout (by simp)
    | ok acols =>
      rw [ha] at hout
      simp only [ok_bind] at hout
      have hblen : bcols.length = s_before.length := by
        unfold stackCols at hb
        cases hmb : mapE (sampleData bt) s_before with
        | error e => rw [hmb] at hb; exact absurd hb (by simp)
        | ok cols =>
          rw [hmb] at hb
          simp only [ok_bind] at hb
          by_cases hemp : cols.isEmpty
          · rw [if_pos hemp] at hb; exact absurd hb (by simp)
          · rw [if_neg hemp] at hb
            have : cols = bcols := by
              have := hb
              simp only [pure, Except.pure, Except.ok.injEq] at this
              exact this
            rw [← this]
            exact mapE_length hmb
      have halen : acols.length = s_after.length := by
        unfold stackCols at ha
        cases hma : mapE (sampleData bt) s_after with
        | error e => rw [hma] at ha; exact absurd ha (by simp)
        | ok cols =>
          rw [hma] at ha
          simp only [ok_bind] at ha
          by_cases hemp : cols.isEmpty
          · rw [if_pos hemp] at ha; exact absurd ha (by simp)
          · rw [if_neg hemp] at ha
            have : cols = acols := by
              have := ha
              simp only [pure, Except.pure, Except.ok.injEq] at this
              exact this
            rw [← this]
            exact mapE_length hma
      constructor
      · rw [mapE_length hout, List.length_range]
      · intro p hp
        obtain ⟨i, hi⟩ := List.get?_of_mem hp
        have hilt : i < out.length := (List.get?_eq_some.mp hi).1
        have hirange : (List.range bt.ObservationIds.length).get? i = some i := by
          apply List.get?_range
          have h2 : i < (List.range bt.ObservationIds.length).length := by
            rw [← mapE_length hout]
            exact hilt
          simpa using h2
        obtain ⟨q, hq1, hq2⟩ := mapE_get? hout hirange
        rw [hi] at hq2
        have hpq : p = q := Option.some.inj hq2
        subst hpq
        cases hq3 : mapE (fun col => pyGet PyError.indexError col i) bcols with
        | error e => rw [hq3] at hq1; exact absurd hq1 (by simp)
        | ok b =>
          rw [hq3] at hq1
          cases hq4 : mapE (fun col => pyGet PyError.indexError col i) acols with
          | error e => rw [hq4] at hq1; exact absurd hq1 (by simp)
          | ok a =>
            rw [hq4] at hq1
            simp only [ok_bind, pure, Except.pure, Except.ok.injEq] at hq1
            rw [← hq1]
            constructor
            · show b.length = s_before.length
              rw [mapE_length hq3]
              exact hblen
            · show a.length = s_after.length
              rw [mapE_length hq4]
              exact halen

/-- **C4 witness**: concrete successful run of the amended statement. -/
theorem paired_t_generator_pair_lengths_witness :
    ([([1, 2], [3])] : List (List ℚ × List ℚ)).length =
        (BiomTable.mk ["o1"] ["s1", "s2", "s3"] [[1, 2, 3]] none).ObservationIds.length
    ∧ ∀ p ∈ ([([1, 2], [3])] : List (List ℚ × List ℚ)),
        p.1.length = (["s1", "s2"] : List String).length
        ∧ p.2.length = (["s3"] : List String).length :=
  paired_t_generator_pair_lengths (BiomTable.mk ["o1"] ["s1", "s2", "s3"] [[1, 2, 3]] none)
    ["s1", "s2"] ["s3"] [([1, 2], [3])] (by decide)

/-! ## Claim C5: non-numeric gradient values abort construction -/

/-- **C5**: when every metadata lookup needed for the gradient succeeds but
some sample's value fails float conversion, the full-row correlation
generator raises `ValueError` during construction, and so does the
longitudinal generator for its subject groups — in both cases the error is
returned instead of any rows, so the whole run aborts before any feature
row is yielded or processed. -/
theorem gradient_nonnumeric_aborts_construction (bt : BiomTable)
    (pmf : List (String × List (String × String))) (category : String)
    (hall : ∀ s ∈ bt.SampleIds, exOk (pmfLookup pmf s category) = true)
    (hbad : ∃ s ∈ bt.SampleIds, gradientValue pmf category s = none) :
    correlation_row_generator bt pmf category = .error .valueError
    ∧ ∀ (hts : List (String × List String)) (htsi : List (String × List ℕ)),
        (∀ g ∈ hts, ∀ sid ∈ g.2, exOk (pmfLookup pmf sid category) = true) →
        (∃ g ∈ hts, ∃ sid ∈ g.2, gradientValue pmf category sid = none) →
        longitudinal_row_generator bt pmf category hts htsi = .error .valueError := by
  constructor
  · obtain ⟨strs, hstrs, _⟩ :=
      mapE_ok_of_forall (fun s hs => exOk_iff.mp (hall s hs))
    obtain ⟨s, hs, hsbad⟩ := hbad
    obtain ⟨v, hv⟩ := exOk_iff.mp (hall s hs)
    have hvparse : parsePyFloat v = none := by
      unfold gradientValue at hsbad
      rw [hv] at hsbad
      exact hsbad
    have hvmem : v ∈ strs := by
      obtain ⟨i, hi⟩ := List.get?_of_mem hs
      obtain ⟨b, hb1, hb2⟩ := mapE_get? hstrs hi
      rw [hv] at hb1
      rw [← Except.ok.inj hb1] at hb2
      exact List.get?_mem hb2
    unfold correlation_row_generator
    rw [hstrs]
    simp only [ok_bind]
    rw [mapO_none_of_mem hvmem hvparse]
  · intro hts htsi h1 h2
    have hgrp : ∀ g ∈ hts,
        (∃ fs, (do
            let strs ← mapE (fun sid => pmfLookup pmf sid category) g.2
            match mapO parsePyFloat strs with
            | some fs => pure fs
            | none => Except.error PyError.valueError) = Except.ok fs)
        ∨ (do
            let strs ← mapE (fun sid => pmfLookup pmf sid category) g.2
            match mapO parsePyFloat strs with
            | some fs => pure fs
            | none => Except.error PyError.valueError) = Except.error PyError.valueError := by
      intro g hg
      obtain ⟨strs, hstrs, _⟩ :=
        mapE_ok_of_forall (fun sid hsid => exOk_iff.mp (h1 g hg sid hsid))
      rw [hstrs]
      simp only [ok_bind]
      cases hparse : mapO parsePyFloat strs with
      | some fs => exact Or.inl ⟨fs, rfl⟩
      | none => exact Or.inr rfl
    have hgbad : ∃ g ∈ hts,
        (do
          let strs ← mapE (fun sid => pmfLookup pmf sid category) g.2
          match mapO parsePyFloat strs with
          | some fs => pure fs
          | none => Except.error PyError.valueError) = Except.error PyError.valueError := by
      obtain ⟨g, hg, sid, hsid, hsbad⟩ := h2
      obtain ⟨strs, hstrs, _⟩ :=
        mapE_ok_of_forall (fun x hx => exOk_iff.mp (h1 g hg x hx))
      obtain ⟨v, hv⟩ := exOk_iff.mp (h1 g hg sid hsid)
      have hvparse : parsePyFloat v = none := by
        unfold gradientValue at hsbad
        rw [hv] at hsbad
        exact hsbad
      have hvmem : v ∈ strs := by
        obtain ⟨i, hi⟩ := List.get?_of_mem hsid
        obtain ⟨b, hb1, hb2⟩ := mapE_get? hstrs hi
        rw [hv] at hb1
        rw [← Except.ok.inj hb1] at hb2
        exact List.get?_mem hb2
      refine ⟨g, hg, ?_⟩
      rw [hstrs]
      simp only [ok_bind]
      rw [mapO_none_of_mem hvmem hvparse]
    have := mapE_error_specific hgrp hgbad
    unfold longitudinal_row_generator
    rw [this]
    rfl

/-- **C5 witness**: the value `abc` for sample `s2` aborts both generators
at construction. -/
theorem gradient_nonnumeric_aborts_construction_witness :
    correlation_row_generator (BiomTable.mk ["o1"] ["s1", "s2"] [[1, 2]] none)
        [("s1", [("ph", "7")]), ("s2", [("ph", "abc")])] "ph" = .error .valueError
    ∧ ∀ (hts : List (String × List String)) (htsi : List (String × List ℕ)),
        (∀ g ∈ hts, ∀ sid ∈ g.2,
          exOk (pmfLookup [("s1", [("ph", "7")]), ("s2", [("ph", "abc")])] sid "ph") = true) →
        (∃ g ∈ hts, ∃ sid ∈ g.2,
          gradientValue [("s1", [("ph", "7")]), ("s2", [("ph", "abc")])] "ph" sid = none) →
        longitudinal_row_generator (BiomTable.mk ["o1"] ["s1", "s2"] [[1, 2]] none)
          [("s1", [("ph", "7")]), ("s2", [("ph", "abc")])] "ph" hts htsi = .error .valueError :=
  gradient_nonnumeric_aborts_construction (BiomTable.mk ["o1"] ["s1", "s2"] [[1, 2]] none)
    [("s1", [("ph", "7")]), ("s2", [("ph", "abc")])] "ph" (by decide) (by decide)

/-! ## Claim C1: the correlation formatter swaps the confidence bounds -/

/-- **C1** (the code violates the claim): on a result set whose confidence
interval is low = 1, high = 9, the data line carries the *high* bound under
the `confidence_low` header (column 8) and the *low* bound under
`confidence_high` (column 9): the source appends `ci_highs[i], ci_lows[i]`
(lines 305-307) in the opposite order to its own header (lines 293-295), so
re-parsing a line by column position does not recover the original values. -/
theorem correlation_formatter_swaps_ci_bounds :
    correlation_output_formatter id (BiomTable.mk ["o1"] ["s1"] [[5]] none)
        [0] [0] [0] [0] [0] [0] [0] [9] [1]
      = .ok ["OTU\tCorrelation_Coef\tparametric_P\tparametric_P_FDR\tparametric_P_Bon\tnonparametric_P\tnonparametric_P_FDR\tnonparametric_P_Bon\tconfidence_low\tconfidence_high",
             "o1\t0\t0\t0\t0\t0\t0\t0\t9\t1"]
    ∧ (splitOnChar '\t' "OTU\tCorrelation_Coef\tparametric_P\tparametric_P_FDR\tparametric_P_Bon\tnonparametric_P\tnonparametric_P_FDR\tnonparametric_P_Bon\tconfidence_low\tconfidence_high".data).get? 8
        = some "confidence_low".data
    ∧ (splitOnChar '\t' "o1\t0\t0\t0\t0\t0\t0\t0\t9\t1".data).get? 8
        = some (renderCell 9).data
    ∧ (splitOnChar '\t' "o1\t0\t0\t0\t0\t0\t0\t0\t9\t1".data).get? 9
        = some (renderCell 1).data
    ∧ renderCell 9 ≠ renderCell 1 := by decide

/-! ## Claim C6: the longitudinal runner discards the kendall p-value -/

/-- **C6** (code bug, flagged by the spec itself): line 207 of the source is
the incomplete assignment `pval = ` — a Python syntax error — and line 208
unconditionally rebinds `pval` to the generic parametric value.  Under the
minimal repair that drops line 207, the per-subject p-value fed to the
Fisher pooling equals the generic parametric value even when the rank test
(`kendall`) is selected: here the pooled p-value is 5 (the parametric
stand-in), not 3 (the kendall stand-in), and replacing the kendall p-value
function by a completely different one (returning 100) leaves the output
unchanged — the kendall branch's value is computed and discarded. -/
theorem longitudinal_kendall_pval_discarded :
    run_longitudinal_correlation_test (fun _ _ => 0) (fun _ _ => 3) (fun _ _ => 5)
        List.headI (fun _ _ => (0, 0)) "kendall"
        [([[1, 2]], [[PyFloat.finite 1, PyFloat.finite 2]])]
      = .ok ([[0]], [5], [0], [0])
    ∧ run_longitudinal_correlation_test (fun _ _ => 0) (fun _ _ => 100) (fun _ _ => 5)
        List.headI (fun _ _ => (0, 0)) "kendall"
        [([[1, 2]], [[PyFloat.finite 1, PyFloat.finite 2]])]
      = .ok ([[0]], [5], [0], [0])
    ∧ (3 : ℚ) ≠ 5 := by decide

/-! ## Claim C2: group order in slices matches the mean headers -/

/-- **C2**: the order of the group arrays inside every slice yielded by the
group-significance row generator is the key order of the column-index
partition, which is exactly the order the formatter uses for the
`{group}_mean` headers (both iterate the same dict): for every group
position `i`, the `(5+i)`-th header column is `key_i ++ "_mean"`, and in
every feature row the `i`-th group array — hence the `i`-th reported mean —
is the row restricted to `key_i`'s column indices. -/
theorem group_order_matches_mean_headers (bt : BiomTable)
    (csi : List (String × List ℕ)) (slices : List (List (List ℚ)))
    (hgen : group_significance_row_generator bt csi = .ok slices)
    (i : ℕ) (kv : String × List ℕ) (hkv : csi.get? i = some kv) (tax : Bool) :
    (group_significance_header csi tax).get? (5 + i) = some (kv.1 ++ "_mean")
    ∧ ∀ r row, (observationDataAll bt).get? r = some row →
        ∃ slice arr, slices.get? r = some slice
          ∧ npIndex row kv.2 = .ok arr
          ∧ slice.get? i = some arr
          ∧ (group_means slices).get? r = some (slice.map pymean)
          ∧ (slice.map pymean).get? i = some (pymean arr) := by
  have hilt : i < csi.length := (List.get?_eq_some.mp hkv).1
  constructor
  · unfold group_significance_header
    have hlen5 : (["OTU", "Test-Statistic", "P", "FDR_P", "Bonferroni_P"] : List String).length = 5 :=
      rfl
    rw [List.append_assoc, List.get?_append_right (by rw [hlen5]; omega), hlen5]
    have h5 : 5 + i - 5 = i := by omega
    rw [h5, List.get?_append (by simpa using hilt), List.get?_map, hkv]
    rfl
  · intro r row hrow
    obtain ⟨slice, hs1, hs2⟩ := mapE_get? hgen hrow
    obtain ⟨arr, ha1, ha2⟩ := mapE_get? hs1 hkv
    refine ⟨slice, arr, hs2, ha1, ha2, ?_, ?_⟩
    · unfold group_means
      rw [List.get?_map, hs2]
      rfl
    · rw [List.get?_map, ha2]
      rfl

/-- **C2 witness**: a two-group partition on a 1 × 4 table, checked at group
position 1. -/
theorem group_order_matches_mean_headers_witness :
    (group_significance_header [("A", [0, 1]), ("B", [2, 3])] false).get? (5 + 1)
        = some ("B" ++ "_mean")
    ∧ ∀ r row,
        (observationDataAll (BiomTable.mk ["o1"] ["s1", "s2", "s3", "s4"] [[1, 2, 3, 4]] none)).get? r
          = some row →
        ∃ slice arr, ([[[1, 2], [3, 4]]] : List (List (List ℚ))).get? r = some slice
          ∧ npIndex row [2, 3] = .ok arr
          ∧ slice.get? 1 = some arr
          ∧ (group_means [[[1, 2], [3, 4]]]).get? r = some (slice.map pymean)
          ∧ (slice.map pymean).get? 1 = some (pymean arr) :=
  group_order_matches_mean_headers
    (BiomTable.mk ["o1"] ["s1", "s2", "s3", "s4"] [[1, 2, 3, 4]] none)
    [("A", [0, 1]), ("B", [2, 3])] [[[1, 2], [3, 4]]] (by decide)
    1 ("B", [2, 3]) (by decide) false

/-! ## Claim C10: formatters emit one header plus one line per result entry -/

theorem formatter_shape {rowf : ℕ → Except PyError String} {header : List String} {n : ℕ}
    (h : ∀ i ∈ List.range n, ∃ line, rowf i = .ok line) :
    ∃ out, (mapE rowf (List.range n)).map
        (fun ls => String.intercalate "\t" header :: ls) = .ok out
      ∧ out.length = 1 + n := by
  obtain ⟨ls, hls, hlen⟩ := mapE_ok_of_forall h
  refine ⟨String.intercalate "\t" header :: ls, ?_, ?_⟩
  · rw [hls]
    rfl
  · simp only [List.length_cons, hlen, List.length_range]
    omega

/-- **C10**: each of the four output formatters emits exactly one header
line plus one data line per entry of its primary result list (`pvals` for
the group and paired formatters, `combo_rhos` for the longitudinal one,
`corr_coefs` for the correlation one): whenever the other lists and the
observation ids are at least that long the formatter succeeds with
`1 + primary.length` lines, so a table's size is set by the result lists,
and feature ids beyond them are silently omitted rather than erroring. -/
theorem formatter_line_counts (taxf : String → String) (bt : BiomTable)
    (test_stats pvals fdr_pvals bon_pvals : List ℚ) (means : List (List ℚ))
    (csi : List (String × List ℕ))
    (combo_rhos combo_pvals homogenous fdr_ps bon_ps : List ℚ)
    (corrcoefs : List (List ℚ)) (hts : List (String × List String))
    (corr_coefs p_pvals p_pvals_fdr p_vals_bon np_pvals np_pvals_fdr np_pvals_bon
      ci_highs ci_lows : List ℚ)
    (pt_stats pt_pvals pt_fdr pt_bon : List ℚ)
    (hg : pvals.length ≤ test_stats.length ∧ pvals.length ≤ fdr_pvals.length
      ∧ pvals.length ≤ bon_pvals.length ∧ pvals.length ≤ means.length
      ∧ pvals.length ≤ bt.ObservationIds.length
      ∧ ∀ tx, bt.ObservationMetadata = some tx → pvals.length ≤ tx.length)
    (hl : combo_rhos.length ≤ combo_pvals.length ∧ combo_rhos.length ≤ homogenous.length
      ∧ combo_rhos.length ≤ fdr_ps.length ∧ combo_rhos.length ≤ bon_ps.length
      ∧ combo_rhos.length ≤ corrcoefs.length ∧ combo_rhos.length ≤ bt.ObservationIds.length
      ∧ ∀ tx, bt.ObservationMetadata = some tx → combo_rhos.length ≤ tx.length)
    (hc : corr_coefs.length ≤ p_pvals.length ∧ corr_coefs.length ≤ p_pvals_fdr.length
      ∧ corr_coefs.length ≤ p_vals_bon.length ∧ corr_coefs.length ≤ np_pvals.length
      ∧ corr_coefs.length ≤ np_pvals_fdr.length ∧ corr_coefs.length ≤ np_pvals_bon.length
      ∧ corr_coefs.length ≤ ci_highs.length ∧ corr_coefs.length ≤ ci_lows.length
      ∧ corr_coefs.length ≤ bt.ObservationIds.length
      ∧ ∀ tx, bt.ObservationMetadata = some tx → corr_coefs.length ≤ tx.length)
    (hp : pt_pvals.length ≤ pt_stats.length ∧ pt_pvals.length ≤ pt_fdr.length
      ∧ pt_pvals.length ≤ pt_bon.length ∧ pt_pvals.length ≤ bt.ObservationIds.length
      ∧ ∀ tx, bt.ObservationMetadata = some tx → pt_pvals.length ≤ tx.length) :
    (∃ out, group_significance_output_formatter taxf bt test_stats pvals fdr_pvals
        bon_pvals means csi = .ok out ∧ out.length = 1 + pvals.length)
    ∧ (∃ out, longitudinal_correlation_formatter taxf bt combo_rhos combo_pvals
        homogenous fdr_ps bon_ps corrcoefs hts = .ok out
        ∧ out.length = 1 + combo_rhos.length)
    ∧ (∃ out, correlation_output_formatter taxf bt corr_coefs p_pvals p_pvals_fdr
        p_vals_bon np_pvals np_pvals_fdr np_pvals_bon ci_highs ci_lows = .ok out
        ∧ out.length = 1 + corr_coefs.length)
    ∧ (∃ out, paired_t_output_formatter taxf bt pt_stats pt_pvals pt_fdr pt_bon = .ok out
        ∧ out.length = 1 + pt_pvals.length) := by
  obtain ⟨hg1, hg2, hg3, hg4, hg5, hg6⟩ := hg
  obtain ⟨hl1, hl2, hl3, hl4, hl5, hl6, hl7⟩ := hl
  obtain ⟨hc1, hc2, hc3, hc4, hc5, hc6, hc7, hc8, hc9, hc10⟩ := hc
  obtain ⟨hp1, hp2, hp3, hp4, hp5⟩ := hp
  refine ⟨?_, ?_, ?_, ?_⟩
  · simp only [group_significance_output_formatter]
    apply formatter_shape
    intro i hi
    have hin : i < pvals.length := List.mem_range.mp hi
    obtain ⟨oid, hoid, _⟩ := pyGet_ok_of_lt PyError.indexError (lt_of_lt_of_le hin hg5)
    obtain ⟨ts, hts2, _⟩ := pyGet_ok_of_lt PyError.indexError (lt_of_lt_of_le hin hg1)
    obtain ⟨p, hp', _⟩ := pyGet_ok_of_lt PyError.indexError hin
    obtain ⟨fp, hfp, _⟩ := pyGet_ok_of_lt PyError.indexError (lt_of_lt_of_le hin hg2)
    obtain ⟨bp, hbp, _⟩ := pyGet_ok_of_lt PyError.indexError (lt_of_lt_of_le hin hg3)
    obtain ⟨m, hm, _⟩ := pyGet_ok_of_lt PyError.indexError (lt_of_lt_of_le hin hg4)
    cases hmeta : bt.ObservationMetadata with
    | none => exact ⟨_, by simp only [hoid, hts2, hp', hfp, hbp, hm, ok_bind, hmeta]; rfl⟩
    | some tx =>
      obtain ⟨t, ht, _⟩ := pyGet_ok_of_lt PyError.indexError (lt_of_lt_of_le hin (hg6 tx hmeta))
      exact ⟨_, by simp only [hoid, hts2, hp', hfp, hbp, hm, ok_bind, hmeta, ht]; rfl⟩
  · simp only [longitudinal_correlation_formatter]
    apply formatter_shape
    intro i hi
    have hin : i < combo_rhos.length := List.mem_range.mp hi
    obtain ⟨oid, hoid, _⟩ := pyGet_ok_of_lt PyError.indexError (lt_of_lt_of_le hin hl6)
    obtain ⟨cr, hcr, _⟩ := pyGet_ok_of_lt PyError.indexError hin
    obtain ⟨hgv, hhg, _⟩ := pyGet_ok_of_lt PyError.indexError (lt_of_lt_of_le hin hl2)
    obtain ⟨cp, hcp, _⟩ := pyGet_ok_of_lt PyError.indexError (lt_of_lt_of_le hin hl1)
    obtain ⟨fp, hfp, _⟩ := pyGet_ok_of_lt PyError.indexError (lt_of_lt_of_le hin hl3)
    obtain ⟨bp, hbp, _⟩ := pyGet_ok_of_lt PyError.indexError (lt_of_lt_of_le hin hl4)
    obtain ⟨cc, hcc, _⟩ := pyGet_ok_of_lt PyError.indexError (lt_of_lt_of_le hin hl5)
    cases hmeta : bt.ObservationMetadata with
    | none => exact ⟨_, by simp only [hoid, hcr, hhg, hcp, hfp, hbp, hcc, ok_bind, hmeta]; rfl⟩
    | some tx =>
      obtain ⟨t, ht, _⟩ := pyGet_ok_of_lt PyError.indexError (lt_of_lt_of_le hin (hl7 tx hmeta))
      exact ⟨_, by simp only [hoid, hcr, hhg, hcp, hfp, hbp, hcc, ok_bind, hmeta, ht]; rfl⟩
  · simp only [correlation_output_formatter]
    apply formatter_shape
    intro i hi
    have hin : i < corr_coefs.length := List.mem_range.mp hi
    obtain ⟨oid, hoid, _⟩ := pyGet_ok_of_lt PyError.indexError (lt_of_lt_of_le hin hc9)
    obtain ⟨cc, hcc, _⟩ := pyGet_ok_of_lt PyError.indexError hin
    obtain ⟨pp, hpp, _⟩ := pyGet_ok_of_lt PyError.indexError (lt_of_lt_of_le hin hc1)
    obtain ⟨pf, hpf, _⟩ := pyGet_ok_of_lt PyError.indexError (lt_of_lt_of_le hin hc2)
    obtain ⟨pb, hpb, _⟩ := pyGet_ok_of_lt PyError.indexError (lt_of_lt_of_le hin hc3)
    obtain ⟨np2, hnp, _⟩ := pyGet_ok_of_lt PyError.indexError (lt_of_lt_of_le hin hc4)
    obtain ⟨nf, hnf, _⟩ := pyGet_ok_of_lt PyError.indexError (lt_of_lt_of_le hin hc5)
    obtain ⟨nb, hnb, _⟩ := pyGet_ok_of_lt PyError.indexError (lt_of_lt_of_le hin hc6)
    obtain ⟨ch, hch, _⟩ := pyGet_ok_of_lt PyError.indexError (lt_of_lt_of_le hin hc7)
    obtain ⟨cl, hcl, _⟩ := pyGet_ok_of_lt PyError.indexError (lt_of_lt_of_le hin hc8)
    cases hmeta : bt.ObservationMetadata with
    | none =>
      exact ⟨_, by
        simp only [hoid, hcc, hpp, hpf, hpb, hnp, hnf, hnb, hch, hcl, ok_bind, hmeta]; rfl⟩
    | some tx =>
      obtain ⟨t, ht, _⟩ := pyGet_ok_of_lt PyError.indexError (lt_of_lt_of_le hin (hc10 tx hmeta))
      exact ⟨_, by
        simp only [hoid, hcc, hpp, hpf, hpb, hnp, hnf, hnb, hch, hcl, ok_bind, hmeta, ht]; rfl⟩
  · simp only [paired_t_output_formatter]
    apply formatter_shape
    intro i hi
    have hin : i < pt_pvals.length := List.mem_range.mp hi
    obtain ⟨oid, hoid, _⟩ := pyGet_ok_of_lt PyError.indexError (lt_of_lt_of_le hin hp4)
    obtain ⟨ts, hts2, _⟩ := pyGet_ok_of_lt PyError.indexError (lt_of_lt_of_le hin hp1)
    obtain ⟨p, hp', _⟩ := pyGet_ok_of_lt PyError.indexError hin
    obtain ⟨fp, hfp, _⟩ := pyGet_ok_of_lt PyError.indexError (lt_of_lt_of_le hin hp2)
    obtain ⟨bp, hbp, _⟩ := pyGet_ok_of_lt PyError.indexError (lt_of_lt_of_le hin hp3)
    cases hmeta : bt.ObservationMetadata with
    | none => exact ⟨_, by simp only [hoid, hts2, hp', hfp, hbp, ok_bind, hmeta]; rfl⟩
    | some tx =>
      obtain ⟨t, ht, _⟩ := pyGet_ok_of_lt PyError.indexError (lt_of_lt_of_le hin (hp5 tx hmeta))
      exact ⟨_, by simp only [hoid, hts2, hp', hfp, hbp, ok_bind, hmeta, ht]; rfl⟩

/-- **C10 witness**: on a table with two feature ids but singleton result
lists, every formatter succeeds with exactly 2 lines (header + 1), silently
omitting the second feature. -/
theorem formatter_line_counts_witness :
    (∃ out, group_significance_output_formatter id
        (BiomTable.mk ["o1", "o2"] ["s1"] [[1], [2]] none)
        [4] [5] [6] [7] [[8]] [("A", [0])] = .ok out
      ∧ out.length = 1 + ([5] : List ℚ).length)
    ∧ (∃ out, longitudinal_correlation_formatter id
        (BiomTable.mk ["o1", "o2"] ["s1"] [[1], [2]] none)
        [4] [5] [6] [7] [8] [[9]] [("i1", ["s1"])] = .ok out
      ∧ out.length = 1 + ([4] : List ℚ).length)
    ∧ (∃ out, correlation_output_formatter id
        (BiomTable.mk ["o1", "o2"] ["s1"] [[1], [2]] none)
        [4] [5] [6] [7] [8] [9] [10] [11] [12] = .ok out
      ∧ out.length = 1 + ([4] : List ℚ).length)
    ∧ (∃ out, paired_t_output_formatter id
        (BiomTable.mk ["o1", "o2"] ["s1"] [[1], [2]] none)
        [4] [5] [6] [7] = .ok out
      ∧ out.length = 1 + ([5] : List ℚ).length) :=
  formatter_line_counts id (BiomTable.mk ["o1", "o2"] ["s1"] [[1], [2]] none)
    [4] [5] [6] [7] [[8]] [("A", [0])]
    [4] [5] [6] [7] [8] [[9]] [("i1", ["s1"])]
    [4] [5] [6] [7] [8] [9] [10] [11] [12]
    [4] [5] [6] [7]
    (by refine ⟨by decide, by decide, by decide, by decide, by decide, ?_⟩
        intro tx htx
        exact Option.noConfusion htx)
    (by refine ⟨by decide, by decide, by decide, by decide, by decide, by decide, ?_⟩
        intro tx htx
        exact Option.noConfusion htx)
    (by refine ⟨by decide, by decide, by decide, by decide, by decide, by decide, by decide,
          by decide, by decide, ?_⟩
        intro tx htx
        exact Option.noConfusion htx)
    (by refine ⟨by decide, by decide, by decide, by decide, ?_⟩
        intro tx htx
        exact Option.noConfusion htx)

/-! ## Claim C7: the group partition is exact -/

theorem keys_nodup_mem_unique {α β : Type} {l : List (α × β)}
    (hnd : (l.map Prod.fst).Nodup) {k : α} {v w : β}
    (h1 : (k, v) ∈ l) (h2 : (k, w) ∈ l) : v = w := by
  induction l with
  | nil => exact absurd h1 (List.not_mem_nil _)
  | cons a t ih =>
    rw [List.map_cons, List.nodup_cons] at hnd
    have hmemfst : ∀ z : β, (k, z) ∈ t → k ∈ t.map Prod.fst := by
      intro z hz
      exact List.mem_map.mpr ⟨(k, z), hz, rfl⟩
    rcases List.mem_cons.mp h1 with he1 | h1t
    · rcases List.mem_cons.mp h2 with he2 | h2t
      · rw [← he1] at he2
        exact ((Prod.mk.inj he2).2).symm
      · exfalso
        apply hnd.1
        have ha1 : a.1 = k := by rw [← he1]
        rw [ha1]
        exact hmemfst w h2t
    · rcases List.mem_cons.mp h2 with he2 | h2t
      · exfalso
        apply hnd.1
        have ha1 : a.1 = k := by rw [← he2]
        rw [ha1]
        exact hmemfst v h1t
      · exact ih hnd.2 h1t h2t

theorem count_group_entry (k g : String) :
    ∀ sam_cats : List (String × String),
      ((sam_cats.filter (fun kv => decide (kv.2 = g))).map Prod.fst).count k
        = sam_cats.count (k, g) := by
  intro l
  induction l with
  | nil => rfl
  | cons a t ih =>
    rcases a with ⟨a1, a2⟩
    by_cases h2 : a2 = g
    · subst h2
      by_cases h1 : a1 = k
      · subst h1
        simp [List.filter_cons, List.count_cons, ih]
      · simp [List.filter_cons, List.count_cons, ih, h1, Prod.ext_iff]
    · simp [List.filter_cons, List.count_cons, ih, h2, Prod.ext_iff]

theorem count_pair_of_mem {l : List (String × String)}
    (hnd : (l.map Prod.fst).Nodup) {k v : String} (hm : (k, v) ∈ l) (g : String) :
    l.count (k, g) = if g = v then 1 else 0 := by
  induction l with
  | nil => exact absurd hm (List.not_mem_nil _)
  | cons a t ih =>
    rw [List.map_cons, List.nodup_cons] at hnd
    rcases List.mem_cons.mp hm with he | hmt
    · have hcnt0 : t.count (k, g) = 0 := by
        rw [List.count_eq_zero]
        intro hmem
        apply hnd.1
        have ha1 : a.1 = k := by rw [← he]
        rw [ha1]
        exact List.mem_map.mpr ⟨(k, g), hmem, rfl⟩
      rw [List.count_cons, hcnt0, ← he]
      by_cases hg : g = v
      · subst hg
        simp
      · have hvg : ¬ v = g := fun h => hg h.symm
        simp [hg, hvg, Prod.ext_iff]
    · have ha1 : ¬ a.1 = k := by
        intro he1
        apply hnd.1
        rw [he1]
        exact List.mem_map_of_mem Prod.fst hmt
      rw [List.count_cons, ih hnd.2 hmt]
      have : ¬ a = (k, g) := by
        intro he
        exact ha1 (by rw [he])
      simp [this]

theorem sum_if_count (v : String) :
    ∀ V : List String, (V.map (fun g => if g = v then 1 else 0)).sum = V.count v := by
  intro V
  induction V with
  | nil => rfl
  | cons a t ih =>
    by_cases h : a = v
    · subst h
      simp [List.count_cons, ih, Nat.add_comm]
    · have hva : ¬ v = a := fun he => h he.symm
      simp [List.count_cons, h, hva, ih]

/-- **C7**: for a mapping file with distinct sample ids in which every record
carries the field, building sample categories and inverting them yields a
partition in which each sample id whose field value is non-empty occurs in
exactly one group's sample list (and only once there), each sample id whose
value is the empty string occurs in no group, and no group has an empty
sample list. -/
theorem sample_partition_exact
    (pmf : List (String × List (String × String))) (category : String)
    (hnd : (pmf.map Prod.fst).Nodup)
    (hfield : ∀ kv ∈ pmf, (kv.2.lookup category).isSome = true) :
    ∃ sam_cats, get_sample_cats pmf category = .ok sam_cats
      ∧ (∀ kv ∈ pmf, ∀ v, kv.2.lookup category = some v →
          (((get_cat_sample_groups sam_cats).map Prod.snd).flatten.count kv.1)
            = if v = "" then 0 else 1)
      ∧ ∀ g ∈ get_cat_sample_groups sam_cats, g.2 ≠ [] := by
  have hmap : ∀ kv ∈ pmf,
      (fun kv : String × List (String × String) =>
          (kv.2.lookup category).map (fun v => (kv.1, v))) kv
        = some ((fun kv : String × List (String × String) =>
            (kv.1, (kv.2.lookup category).getD "")) kv) := by
    intro kv hkv
    obtain ⟨v, hv⟩ := Option.isSome_iff_exists.mp (hfield kv hkv)
    simp [hv]
  have hok : get_sample_cats pmf category
      = .ok ((pmf.map (fun kv => (kv.1, (kv.2.lookup category).getD ""))).filter
          (fun kv => decide (kv.2 ≠ ""))) := by
    unfold get_sample_cats
    rw [mapO_eq_map hmap]
  set S := pmf.map (fun kv : String × List (String × String) =>
    (kv.1, (kv.2.lookup category).getD "")) with hS
  set sam_cats := S.filter (fun kv => decide (kv.2 ≠ "")) with hsc
  have hSkeys : S.map Prod.fst = pmf.map Prod.fst := by
    rw [hS, List.map_map]
    rfl
  have hSnd : (S.map Prod.fst).Nodup := by rw [hSkeys]; exact hnd
  have hscnd : (sam_cats.map Prod.fst).Nodup :=
    List.Nodup.sublist (List.Sublist.map Prod.fst (List.filter_sublist S)) hSnd
  refine ⟨sam_cats, hok, ?_, ?_⟩
  · intro kv hkv v hv
    have hmemS : (kv.1, v) ∈ S := by
      rw [hS]
      have : (kv.1, v) = (kv.1, (kv.2.lookup category).getD "") := by rw [hv]; rfl
      rw [this]
      exact List.mem_map_of_mem _ hkv
    -- rewrite the count over all groups as a sum of per-group entry counts
    have hjoin : (((get_cat_sample_groups sam_cats).map Prod.snd).flatten.count kv.1)
        = (((sam_cats.map Prod.snd).dedup).map (fun g => sam_cats.count (kv.1, g))).sum := by
      unfold get_cat_sample_groups
      rw [List.map_map, List.count_flatten, List.map_map]
      congr 1
      apply List.map_congr_left
      intro g _
      exact count_group_entry kv.1 g sam_cats
    by_cases hve : v = ""
    · -- excluded: the sample id occurs in no group
      subst hve
      have hnotin : ∀ g, sam_cats.count (kv.1, g) = 0 := by
        intro g
        rw [List.count_eq_zero]
        intro hmem
        have hmem2 : (kv.1, g) ∈ S := (List.mem_filter.mp hmem).1
        have hgne : g ≠ "" := by
          have := (List.mem_filter.mp hmem).2
          simpa using this
        exact hgne (keys_nodup_mem_unique hSnd hmem2 hmemS)
      rw [hjoin]
      simp only [if_pos rfl]
      apply List.sum_eq_zero
      intro x hx
      obtain ⟨g, _, hg⟩ := List.mem_map.mp hx
      rw [← hg]
      exact hnotin g
    · -- included: the sample id occurs in exactly one group, once
      have hmemsc : (kv.1, v) ∈ sam_cats := by
        rw [hsc]
        rw [List.mem_filter]
        exact ⟨hmemS, by simpa using hve⟩
      have hcnt : ∀ g, sam_cats.count (kv.1, g) = if g = v then 1 else 0 :=
        count_pair_of_mem hscnd hmemsc
      rw [hjoin]
      rw [if_neg hve]
      have : (((sam_cats.map Prod.snd).dedup).map (fun g => sam_cats.count (kv.1, g)))
          = ((sam_cats.map Prod.snd).dedup).map (fun g => if g = v then 1 else 0) := by
        apply List.map_congr_left
        intro g _
        exact hcnt g
      rw [this, sum_if_count]
      apply List.count_eq_one_of_mem (List.nodup_dedup _)
      rw [List.mem_dedup]
      exact List.mem_map_of_mem Prod.snd hmemsc
  · intro g hg
    unfold get_cat_sample_groups at hg
    obtain ⟨gv, hgv, hge⟩ := List.mem_map.mp hg
    rw [List.mem_dedup] at hgv
    obtain ⟨kv, hkv, hkve⟩ := List.mem_map.mp hgv
    have hmemf : kv ∈ sam_cats.filter (fun x => decide (x.2 = gv)) := by
      rw [List.mem_filter]
      exact ⟨hkv, by simpa using hkve⟩
    have : kv.1 ∈ g.2 := by
      rw [← hge]
      exact List.mem_map_of_mem Prod.fst hmemf
    exact List.ne_nil_of_mem this

/-- **C7 witness**: three samples, one with an empty value. -/
theorem sample_partition_exact_witness :
    ∃ sam_cats, get_sample_cats
        [("s1", [("diet", "A")]), ("s2", [("diet", "")]), ("s3", [("diet", "A")])] "diet"
      = .ok sam_cats
      ∧ (∀ kv ∈ [("s1", [("diet", "A")]), ("s2", [("diet", "")]), ("s3", [("diet", "A")])],
          ∀ v, kv.2.lookup "diet" = some v →
          (((get_cat_sample_groups sam_cats).map Prod.snd).flatten.count kv.1)
            = if v = "" then 0 else 1)
      ∧ ∀ g ∈ get_cat_sample_groups sam_cats, g.2 ≠ [] :=
  sample_partition_exact
    [("s1", [("diet", "A")]), ("s2", [("diet", "")]), ("s3", [("diet", "A")])] "diet"
    (by decide) (by decide)

end OtuSignificance
